import Mathlib

/-!
Verification of the task-lifecycle and staged-curriculum controller of
`task_generator/task_generator/tasks.py` (arena-rosnav-3D), via a shallow
embedding of its classes in Lean.

Embedding conventions:
* Stage definitions (`self._stages`, a dict `1..N -> {"static": _, "dynamic": _}`)
  are a `List StageDef`; stage number `k` lives at list index `k - 1`.
* ROS parameters, the `hyperparameters.json` record and the subprocess side
  effects are carried explicitly in the state / result types.
* Exceptions become `Except` / dedicated error constructors.
-/

namespace ArenaTasks

/-- Record for one curriculum stage: the `static` and `dynamic` obstacle counts
of an entry of `training_curriculum.yaml` (`self._stages[k]`). -/
structure StageDef where
  static : Nat
  dynamic : Nat
deriving DecidableEq

/-- Observable effect of `StagedRandomTask._initiate_stage` (after the
unconditional `remove_all_obstacles()`):
* `restart n`: the population-change branch — `set_param("actors", n)`,
  `killall gzclient/gzserver`, `generate_world.py`, relaunch
  `gazebo_simulator.launch`, wait for `/gazebo/spawn_urdf_model`,
  `spawn_robot()`, sleep.
* `registerLive n`: the live branch — `register_random_dynamic_obstacles(n)`
  without any restart. -/
inductive InitiateEffect where
  | restart (nDyn : Nat)
  | registerLive (nDyn : Nat)
deriving DecidableEq

/-- Shallow embedding of `StagedRandomTask._initiate_stage` as a function of the
stage table and the current stage number `c` (`self._curr_stage`).
`none` models a Python `KeyError` on a missing stage entry.  The restart
condition is taken verbatim from the source:
`self._curr_stage == 1 or n_dynamic_obstacles != self._stages[self._curr_stage - 1]["dynamic"]`,
where `self._stages[self._curr_stage - 1]` is the entry for stage `c - 1`. -/
def initiateStage (stages : List StageDef) (c : Nat) : Option InitiateEffect :=
  match stages[c - 1]? with
  | none => none
  | some st =>
    if c = 1 then
      some (InitiateEffect.restart st.dynamic)
    else
      match stages[c - 2]? with
      | none => none
      | some prev =>
        if st.dynamic ≠ prev.dynamic then
          some (InitiateEffect.restart st.dynamic)
        else
          some (InitiateEffect.registerLive st.dynamic)

/-- State touched by a `StagedRandomTask` instance and its triggers:
`currStage` is `self._curr_stage`; `paramCurrStage` the `/curr_stage` ROS
parameter; `lastStageReached` the `/last_stage_reached` ROS parameter;
`jsonCurrStage` the `curr_stage` field persisted in `hyperparameters.json`. -/
structure StagedState where
  currStage : Nat
  paramCurrStage : Nat
  lastStageReached : Bool
  jsonCurrStage : Nat
deriving DecidableEq

/-- Shallow embedding of the `StagedRandomTask` constructor's start-stage
validation: `self._curr_stage = start_stage`, then
`if self._curr_stage < 1 or self._curr_stage > len(self._stages): raise IndexError`,
then `rospy.set_param("/curr_stage", self._curr_stage)`.
`env` is the ambient parameter/record state before construction: the
constructor writes `/curr_stage` but neither `/last_stage_reached` nor the
json record. -/
def mkStagedRandomTask (stages : List StageDef) (startStage : Int)
    (env : StagedState) : Except String StagedState :=
  if startStage < 1 ∨ (stages.length : Int) < startStage then
    Except.error "Start stage given for training curriculum out of bounds!"
  else
    Except.ok { env with
      currStage := startStage.toNat
      paramCurrStage := startStage.toNat }

/-- Shallow embedding of `StagedRandomTask.next_stage` (the `next_stage`
trigger callback).  `ns` is `self.ns`, `N` is `len(self._stages)`. -/
def nextStage (ns : String) (N : Nat) (s : StagedState) : StagedState :=
  if s.currStage < N then
    let s1 : StagedState := { s with currStage := s.currStage + 1 }
    if ns = "eval_sim" then
      let s2 : StagedState :=
        { s1 with paramCurrStage := s1.currStage, jsonCurrStage := s1.currStage }
      if s2.currStage = N then { s2 with lastStageReached := true } else s2
    else s1
  else s

/-- Shallow embedding of `StagedRandomTask.previous_stage`.  Note that
`rospy.set_param("/last_stage_reached", False)` is executed before the
`self.ns == "eval_sim"` check, i.e. by every instance. -/
def previousStage (ns : String) (s : StagedState) : StagedState :=
  if 1 < s.currStage then
    let s1 : StagedState :=
      { s with lastStageReached := false, currStage := s.currStage - 1 }
    if ns = "eval_sim" then
      { s1 with paramCurrStage := s1.currStage, jsonCurrStage := s1.currStage }
    else s1
  else s

/-- External trigger signals on the `next_stage` / `previous_stage` topics. -/
inductive Trigger where
  | advance
  | retreat
deriving DecidableEq

/-- Dispatch one trigger to the corresponding callback. -/
def applyTrigger (ns : String) (N : Nat) (t : Trigger) (s : StagedState) :
    StagedState :=
  match t with
  | Trigger.advance => nextStage ns N s
  | Trigger.retreat => previousStage ns s

/-- Fold a list of triggers over the staged state, first trigger first. -/
def applyTriggers (ns : String) (N : Nat) :
    List Trigger → StagedState → StagedState
  | [], s => s
  | t :: ts, s => applyTriggers ns N ts (applyTrigger ns N t s)

/-- Outcome of one attempt of the body of `RandomTask.reset`'s retry loop
(the `try:` block: `set_start_pos_goal_pos`, `remove_all_obstacles`,
`register_random_dynamic_obstacles`):
* `success gx gy`: all three collaborator calls returned; `(gx, gy)` is the
  sampled goal position.
* `serviceError`: one of the calls raised `rospy.ServiceException`.
* `otherError m`: one of the calls raised some other exception `m`. -/
inductive AttemptResult where
  | success (gx gy : Int)
  | serviceError
  | otherError (m : String)
deriving DecidableEq

/-- Result of `RandomTask.reset`:
* `ok gx gy`: returned the info dict, with `info["robot_goal_pos"]` the goal
  position from the successful attempt.
* `resetError`: raised `Exception("reset error!")` after the loop.
* `uncaught m`: an exception other than `rospy.ServiceException` propagated
  out of the `try` block (only `rospy.ServiceException` is caught).
* `exhausted`: model artifact — the supplied list of collaborator behaviours
  ran out while the loop still wanted another attempt. -/
inductive RandomResetOutcome where
  | ok (gx gy : Int)
  | resetError
  | uncaught (m : String)
  | exhausted
deriving DecidableEq

/-- Shallow embedding of the `while fail_times < max_fail_times` loop of
`RandomTask.reset` (with `max_fail_times = 3`); `attempts` supplies the
behaviour of the collaborator calls of the successive iterations and
`failTimes` is `fail_times`.  On loop exit without a `break`,
`if fail_times == max_fail_times: raise Exception("reset error!")`. -/
def randomResetGo : List AttemptResult → Nat → RandomResetOutcome
  | attempts, failTimes =>
    if failTimes < 3 then
      match attempts with
      | [] => RandomResetOutcome.exhausted
      | AttemptResult.success gx gy :: _ => RandomResetOutcome.ok gx gy
      | AttemptResult.serviceError :: rest => randomResetGo rest (failTimes + 1)
      | AttemptResult.otherError m :: _ => RandomResetOutcome.uncaught m
    else RandomResetOutcome.resetError

/-- One call of `RandomTask.reset`: the loop starts with `fail_times = 0`. -/
def randomReset (attempts : List AttemptResult) : RandomResetOutcome :=
  randomResetGo attempts 0

/-- Behaviour of one iteration of `ManualTask.reset`'s 60-second goal wait
(`self._manual_goal_con.wait_for(..., timeout=60)`):
either a goal pose (abstracted to an integer identifier) is published on
`/manual_goal` within the window, or the window times out. -/
inductive ManualEvent where
  | goal (g : Int)
  | timeout
deriving DecidableEq

/-- Result of `ManualTask.reset` given a finite trace of per-iteration wait
events:
* `timeoutError pub`: raised `Exception("TimeOut, ...")`; `pub` is the list of
  goals published downstream before that.
* `stillLooping pub`: the supplied trace was consumed and `reset` is still in
  its `while True` loop (it has not returned).
* `returned pub`: `reset` returned normally — kept in the type to state the
  claim, though no execution produces it. -/
inductive ManualOutcome where
  | timeoutError (pub : List Int)
  | stillLooping (pub : List Int)
  | returned (pub : List Int)
deriving DecidableEq

/-- Whether a `ManualOutcome` is a normal return of `reset`. -/
def ManualOutcome.isReturned : ManualOutcome → Bool
  | ManualOutcome.returned _ => true
  | _ => false

/-- Shallow embedding of `ManualTask.reset`'s `while True` loop.  Each
iteration clears/re-registers obstacles, waits for a goal; on timeout the
received-flag is still false and the loop raises; on a goal, the flag is
cleared (`self._new_goal_received = False`, consuming the goal) and the goal
is published twice (`_goal_pub.publish` and `pub_mvb_goal.publish`), after
which the loop simply continues — there is no `return` or `break`. -/
def manualResetGo : List ManualEvent → List Int → ManualOutcome
  | [], pub => ManualOutcome.stillLooping pub
  | ManualEvent.timeout :: _, pub => ManualOutcome.timeoutError pub
  | ManualEvent.goal g :: rest, pub => manualResetGo rest (pub ++ [g, g])

/-- One call of `ManualTask.reset`, starting with nothing published. -/
def manualReset (evts : List ManualEvent) : ManualOutcome :=
  manualResetGo evts []

/-- Goals consumed before the first timed-out wait window, each published
twice downstream, in order. -/
def publishedBeforeTimeout : List ManualEvent → List Int
  | [] => []
  | ManualEvent.timeout :: _ => []
  | ManualEvent.goal g :: rest => g :: g :: publishedBeforeTimeout rest

/-- Whether some wait window of the trace times out. -/
def hasTimeout : List ManualEvent → Bool
  | [] => false
  | ManualEvent.timeout :: _ => true
  | ManualEvent.goal _ :: rest => hasTimeout rest

/-- Info record returned by `ScenarioTask.reset` (the fields of its `info`
dict; the fixed scenario goal `self.scenario.robotGoal` is abstracted to a
pair of integers). -/
structure ScenarioInfo where
  newScenarioLoaded : Bool
  robotGoalPos : Int × Int
  numRepeatsCurrScene : Nat
  maxRepeatsCurrScene : Nat
deriving DecidableEq

/-- Shallow embedding of `ScenarioTask.reset` acting on `self.reset_count`
(which starts at 0 after construction): increments the counter, then fills
the info dict. -/
def scenarioReset (goal : Int × Int) (resetCount : Nat) : Nat × ScenarioInfo :=
  let c := resetCount + 1
  (c,
    { newScenarioLoaded := if c = 1 then true else false
      robotGoalPos := goal
      numRepeatsCurrScene := c
      maxRepeatsCurrScene := 1000 })

/-- Value of `self.reset_count` after `n` calls of `ScenarioTask.reset`,
starting from the constructor's `self.reset_count = 0`. -/
def scenarioCountAfter (goal : Int × Int) : Nat → Nat
  | 0 => 0
  | n + 1 => (scenarioReset goal (scenarioCountAfter goal n)).1

/-- Info record produced by the `n`-th call of `ScenarioTask.reset`
(`n ≥ 1`). -/
def scenarioNthInfo (goal : Int × Int) (n : Nat) : ScenarioInfo :=
  (scenarioReset goal (scenarioCountAfter goal (n - 1))).2

/-- The task variants `get_predefined_task` can construct. -/
inductive TaskKind where
  | randomTask
  | stagedTask
  | scenarioTask
  | manualTask
deriving DecidableEq

/-- Shallow embedding of the mode dispatch of `get_predefined_task`:
`task = None`, then four independent `if mode == ...` assignments, then
`return task`.  There is no `else`/`raise` branch, so an unrecognised mode
falls through and the function returns `None`. -/
def getPredefinedTask (mode : String) : Option TaskKind :=
  let task : Option TaskKind := none
  let task := if mode = "random" then some TaskKind.randomTask else task
  let task := if mode = "staged" then some TaskKind.stagedTask else task
  let task := if mode = "scenario" then some TaskKind.scenarioTask else task
  let task := if mode = "manual" then some TaskKind.manualTask else task
  task

/-- Atomic actions of a `with self._map_lock:` block: acquire the lock, run
one collaborator call of the body, release the lock. -/
inductive LAction where
  | acquire
  | work
  | release
deriving DecidableEq

/-- Program of a critical section guarded by `self._map_lock`: one acquire,
`n` body steps, one release — the shape of both `ABSTask._update_map` and
`RandomTask.reset`, whose bodies run entirely under the lock. -/
def lockProg (n : Nat) : List LAction :=
  LAction.acquire :: (List.replicate n LAction.work ++ [LAction.release])

/-- The map-update callback `ABSTask._update_map`: under `self._map_lock` it
performs `obstacle_manager.update_map(map_)` and
`robot_manager.update_map(map_)` — two body steps. -/
def mapUpdProg : List LAction := lockProg 2

/-- The two threads of the model: the ROS subscriber thread running
`_update_map`, and the training-driver thread running `reset()`. -/
inductive Thread2 where
  | mapUpd
  | resetter
deriving DecidableEq

/-- Program of each thread; `n` is the number of collaborator calls the
in-progress `RandomTask.reset` body performs under the lock (it varies with
the retry loop, so it is a parameter). -/
def progOf (n : Nat) : Thread2 → List LAction
  | Thread2.mapUpd => mapUpdProg
  | Thread2.resetter => lockProg n

/-- Joint state: which thread holds `self._map_lock` (a non-reentrant
`threading.Lock`), and each thread's position in its program. -/
structure SysState where
  lockHolder : Option Thread2
  pcMap : Nat
  pcReset : Nat
deriving DecidableEq

/-- Program counter of a thread. -/
def pcOf : Thread2 → SysState → Nat
  | Thread2.mapUpd, s => s.pcMap
  | Thread2.resetter, s => s.pcReset

/-- Advance a thread's program counter by one. -/
def advancePc : Thread2 → SysState → SysState
  | Thread2.mapUpd, s => { s with pcMap := s.pcMap + 1 }
  | Thread2.resetter, s => { s with pcReset := s.pcReset + 1 }

/-- Interleaving small-step semantics: `Lock.acquire` blocks unless the lock
is free; body steps run while holding; `Lock.release` frees the lock. -/
inductive Step (n : Nat) : Thread2 → SysState → SysState → Prop where
  | acq (t : Thread2) (s : SysState)
      (ha : (progOf n t).get? (pcOf t s) = some LAction.acquire)
      (hl : s.lockHolder = none) :
      Step n t s { advancePc t s with lockHolder := some t }
  | wrk (t : Thread2) (s : SysState)
      (ha : (progOf n t).get? (pcOf t s) = some LAction.work) :
      Step n t s (advancePc t s)
  | rel (t : Thread2) (s : SysState)
      (ha : (progOf n t).get? (pcOf t s) = some LAction.release)
      (hl : s.lockHolder = some t) :
      Step n t s { advancePc t s with lockHolder := none }

/-- Initial state: lock free, both threads before their critical sections. -/
def initState : SysState :=
  { lockHolder := none, pcMap := 0, pcReset := 0 }

/-- States reachable by any interleaving of the two threads. -/
inductive Reachable (n : Nat) : SysState → Prop where
  | init : Reachable n initState
  | step (t : Thread2) (s s' : SysState) :
      Reachable n s → Step n t s s' → Reachable n s'

/-- Body length of each thread's critical section. -/
def bodyLen (n : Nat) : Thread2 → Nat
  | Thread2.mapUpd => 2
  | Thread2.resetter => n

/-- A thread is inside its critical section: past the acquire, release not yet
completed. -/
def inCS (n : Nat) (t : Thread2) (s : SysState) : Prop :=
  1 ≤ pcOf t s ∧ pcOf t s ≤ bodyLen n t + 1

instance (n : Nat) (t : Thread2) (s : SysState) : Decidable (inCS n t s) := by
  unfold inCS; infer_instance

/-- Sample stage table used as concrete input for several theorems: stages 1
and 2 share the dynamic count 1, stage 3 has dynamic count 5. -/
def c1Stages : List StageDef :=
  [{ static := 0, dynamic := 1 }, { static := 0, dynamic := 1 },
   { static := 0, dynamic := 5 }]

/-- Sample staged-controller state used as concrete input for several
theorems: at stage 2 with the last-stage-reached flag set. -/
def sampleStaged : StagedState :=
  { currStage := 2, paramCurrStage := 2, lastStageReached := true,
    jsonCurrStage := 2 }

/-- The lock-discipline invariant: a thread is inside its critical section
exactly when it holds the lock, and its program counter never passes the end
of its program. -/
def LockInv (n : Nat) (s : SysState) : Prop :=
  ∀ t, (inCS n t s ↔ s.lockHolder = some t) ∧
    pcOf t s ≤ bodyLen n t + 2

theorem nextStage_currStage (ns : String) (N : Nat) (s : StagedState) :
    (nextStage ns N s).currStage =
      if s.currStage < N then s.currStage + 1 else s.currStage := by
  by_cases h : s.currStage < N <;> by_cases hn : ns = "eval_sim" <;>
    simp [nextStage, h, hn] <;> split <;> simp

theorem previousStage_currStage (ns : String) (s : StagedState) :
    (previousStage ns s).currStage =
      if 1 < s.currStage then s.currStage - 1 else s.currStage := by
  by_cases h : 1 < s.currStage <;> by_cases hn : ns = "eval_sim" <;>
    simp [previousStage, h, hn]

theorem applyTrigger_bounds (ns : String) (N : Nat) (t : Trigger)
    (s : StagedState) (h1 : 1 ≤ s.currStage) (h2 : s.currStage ≤ N) :
    1 ≤ (applyTrigger ns N t s).currStage ∧
      (applyTrigger ns N t s).currStage ≤ N := by
  cases t with
  | advance =>
    simp only [applyTrigger, nextStage_currStage]
    split <;> omega
  | retreat =>
    simp only [applyTrigger, previousStage_currStage]
    split <;> omega

theorem applyTriggers_bounds (ns : String) (N : Nat) (ts : List Trigger)
    (s : StagedState) (h1 : 1 ≤ s.currStage) (h2 : s.currStage ≤ N) :
    1 ≤ (applyTriggers ns N ts s).currStage ∧
      (applyTriggers ns N ts s).currStage ≤ N := by
  induction ts generalizing s with
  | nil => exact ⟨h1, h2⟩
  | cons t ts ih =>
    have h := applyTrigger_bounds ns N t s h1 h2
    exact ih (applyTrigger ns N t s) h.1 h.2

theorem progOf_eq_lockProg (n : Nat) (t : Thread2) :
    progOf n t = lockProg (bodyLen n t) := by
  cases t <;> rfl

theorem repWork_get (n q : Nat) :
    (List.replicate n LAction.work ++ [LAction.release]).get? q =
      if q < n then some LAction.work
      else if q = n then some LAction.release
      else none := by
  induction n generalizing q with
  | zero =>
    cases q with
    | zero => rfl
    | succ r => simp [List.get?]
  | succ m ih =>
    cases q with
    | zero => simp [List.replicate_succ]
    | succ r =>
      simp only [List.replicate_succ, List.cons_append, List.get?_cons_succ]
      rw [ih]
      by_cases h1 : r < m
      · rw [if_pos h1, if_pos (show r + 1 < m + 1 by omega)]
      · rw [if_neg h1, if_neg (show ¬ r + 1 < m + 1 by omega)]
        by_cases h2 : r = m
        · rw [if_pos h2, if_pos (show r + 1 = m + 1 by omega)]
        · rw [if_neg h2, if_neg (show ¬ r + 1 = m + 1 by omega)]

theorem lockProg_get (n p : Nat) :
    (lockProg n).get? p =
      if p = 0 then some LAction.acquire
      else if p ≤ n then some LAction.work
      else if p = n + 1 then some LAction.release
      else none := by
  cases p with
  | zero => rfl
  | succ q =>
    simp only [lockProg, List.get?_cons_succ]
    rw [repWork_get, if_neg (show ¬ q + 1 = 0 by omega)]
    by_cases h1 : q < n
    · rw [if_pos h1, if_pos (show q + 1 ≤ n by omega)]
    · rw [if_neg h1]
      by_cases h2 : q = n
      · rw [if_pos h2, if_neg (show ¬ q + 1 ≤ n by omega),
          if_pos (show q + 1 = n + 1 by omega)]
      · rw [if_neg h2, if_neg (show ¬ q + 1 ≤ n by omega),
          if_neg (show ¬ q + 1 = n + 1 by omega)]

theorem acquirePos (n : Nat) (t : Thread2) (p : Nat)
    (h : (progOf n t).get? p = some LAction.acquire) : p = 0 := by
  rw [progOf_eq_lockProg, lockProg_get] at h
  split_ifs at h <;> simp_all

theorem workPos (n : Nat) (t : Thread2) (p : Nat)
    (h : (progOf n t).get? p = some LAction.work) :
    1 ≤ p ∧ p ≤ bodyLen n t := by
  rw [progOf_eq_lockProg, lockProg_get] at h
  split_ifs at h <;> simp_all <;> omega

theorem releasePos (n : Nat) (t : Thread2) (p : Nat)
    (h : (progOf n t).get? p = some LAction.release) : p = bodyLen n t + 1 := by
  rw [progOf_eq_lockProg, lockProg_get] at h
  split_ifs at h <;> simp_all

theorem pcOf_advancePc (u t : Thread2) (s : SysState) :
    pcOf u (advancePc t s) = if u = t then pcOf u s + 1 else pcOf u s := by
  cases u <;> cases t <;> simp [advancePc, pcOf]

theorem pcOf_setLock (u : Thread2) (s : SysState) (l : Option Thread2) :
    pcOf u { s with lockHolder := l } = pcOf u s := by
  cases u <;> rfl

theorem lockInv_step (n : Nat) (t : Thread2) (s s' : SysState)
    (hinv : LockInv n s) (hstep : Step n t s s') : LockInv n s' := by
  cases hstep with
  | acq ha hl =>
    have hpc0 : pcOf t s = 0 := acquirePos n t (pcOf t s) ha
    intro u
    have hpcu : pcOf u ({ advancePc t s with lockHolder := some t }) =
        if u = t then pcOf u s + 1 else pcOf u s := by
      rw [pcOf_setLock, pcOf_advancePc]
    by_cases hu : u = t
    · subst hu
      rw [if_pos rfl] at hpcu
      refine ⟨⟨fun _ => rfl, fun _ => ?_⟩, ?_⟩
      · unfold inCS
        rw [hpcu, hpc0]
        omega
      · rw [hpcu, hpc0]
        omega
    · rw [if_neg hu] at hpcu
      have hucs : ¬ inCS n u s := by
        intro hcs
        have h2 := ((hinv u).1).mp hcs
        rw [hl] at h2
        exact Option.noConfusion h2
      refine ⟨⟨fun hcs => ?_, fun heq => ?_⟩, ?_⟩
      · exfalso
        apply hucs
        unfold inCS at hcs ⊢
        rw [hpcu] at hcs
        exact hcs
      · exfalso
        have h3 : some t = some u := heq
        exact hu (Option.some.inj h3).symm
      · rw [hpcu]
        exact (hinv u).2
  | wrk ha =>
    have hp := workPos n t (pcOf t s) ha
    have htcs : inCS n t s := ⟨hp.1, by omega⟩
    have hold : s.lockHolder = some t := ((hinv t).1).mp htcs
    intro u
    have hpcu : pcOf u (advancePc t s) =
        if u = t then pcOf u s + 1 else pcOf u s := pcOf_advancePc u t s
    have hlock : (advancePc t s).lockHolder = s.lockHolder := by
      cases t <;> rfl
    by_cases hu : u = t
    · subst hu
      rw [if_pos rfl] at hpcu
      refine ⟨⟨fun _ => ?_, fun _ => ?_⟩, ?_⟩
      · rw [hlock]
        exact hold
      · unfold inCS
        rw [hpcu]
        omega
      · rw [hpcu]
        omega
    · rw [if_neg hu] at hpcu
      refine ⟨⟨fun hcs => ?_, fun heq => ?_⟩, ?_⟩
      · have hcs2 : inCS n u s := by
          unfold inCS at hcs ⊢
          rw [hpcu] at hcs
          exact hcs
        rw [hlock]
        exact ((hinv u).1).mp hcs2
      · have heq2 : s.lockHolder = some u := by
          rw [← hlock]
          exact heq
        have hcs2 : inCS n u s := ((hinv u).1).mpr heq2
        unfold inCS at hcs2 ⊢
        rw [hpcu]
        exact hcs2
      · rw [hpcu]
        exact (hinv u).2
  | rel ha hl =>
    have hpc : pcOf t s = bodyLen n t + 1 := releasePos n t (pcOf t s) ha
    intro u
    have hpcu : pcOf u ({ advancePc t s with lockHolder := none }) =
        if u = t then pcOf u s + 1 else pcOf u s := by
      rw [pcOf_setLock, pcOf_advancePc]
    by_cases hu : u = t
    · subst hu
      rw [if_pos rfl] at hpcu
      refine ⟨⟨fun hcs => ?_, fun heq => ?_⟩, ?_⟩
      · exfalso
        unfold inCS at hcs
        rw [hpcu, hpc] at hcs
        omega
      · exfalso
        have h3 : (none : Option Thread2) = some u := heq
        exact Option.noConfusion h3
      · rw [hpcu, hpc]
    · rw [if_neg hu] at hpcu
      have hucs : ¬ inCS n u s := by
        intro hcs
        have h2 := ((hinv u).1).mp hcs
        rw [hl] at h2
        exact hu (Option.some.inj h2).symm
      refine ⟨⟨fun hcs => ?_, fun heq => ?_⟩, ?_⟩
      · exfalso
        apply hucs
        unfold inCS at hcs ⊢
        rw [hpcu] at hcs
        exact hcs
      · exfalso
        have h3 : (none : Option Thread2) = some u := heq
        exact Option.noConfusion h3
      · rw [hpcu]
        exact (hinv u).2

theorem lockInv_reachable (n : Nat) (s : SysState) (h : Reachable n s) :
    LockInv n s := by
  induction h with
  | init =>
    intro t
    have h0 : pcOf t initState = 0 := by cases t <;> rfl
    refine ⟨⟨fun hcs => ?_, fun heq => ?_⟩, ?_⟩
    · exfalso
      unfold inCS at hcs
      rw [h0] at hcs
      omega
    · exact Option.noConfusion heq
    · rw [h0]
      omega
  | step t s s' _ hstep ih => exact lockInv_step n t s s' ih hstep

theorem applyTriggers_append (ns : String) (N : Nat) (l1 l2 : List Trigger)
    (s : StagedState) :
    applyTriggers ns N (l1 ++ l2) s =
      applyTriggers ns N l2 (applyTriggers ns N l1 s) := by
  induction l1 generalizing s with
  | nil => rfl
  | cons t ts ih =>
    simp only [List.cons_append, applyTriggers]
    exact ih (applyTrigger ns N t s)

theorem applyTriggers_replicate_advance (ns : String) (N k : Nat)
    (s : StagedState) (h : s.currStage + k ≤ N) :
    (applyTriggers ns N (List.replicate k Trigger.advance) s).currStage =
      s.currStage + k := by
  induction k generalizing s with
  | zero => rfl
  | succ m ih =>
    have hst : (nextStage ns N s).currStage = s.currStage + 1 := by
      rw [nextStage_currStage, if_pos (show s.currStage < N by omega)]
    have hrw : applyTriggers ns N (List.replicate (m + 1) Trigger.advance) s =
        applyTriggers ns N (List.replicate m Trigger.advance)
          (nextStage ns N s) := rfl
    rw [hrw, ih (nextStage ns N s) (by rw [hst]; omega), hst]
    omega

theorem applyTriggers_replicate_retreat (ns : String) (N k : Nat)
    (s : StagedState) (h : k < s.currStage) :
    (applyTriggers ns N (List.replicate k Trigger.retreat) s).currStage =
      s.currStage - k := by
  induction k generalizing s with
  | zero => rfl
  | succ m ih =>
    have hst : (previousStage ns s).currStage = s.currStage - 1 := by
      rw [previousStage_currStage, if_pos (show 1 < s.currStage by omega)]
    have hrw : applyTriggers ns N (List.replicate (m + 1) Trigger.retreat) s =
        applyTriggers ns N (List.replicate m Trigger.retreat)
          (previousStage ns s) := rfl
    rw [hrw, ih (previousStage ns s) (by rw [hst]; omega), hst]
    omega

theorem manualResetGo_spec (evts : List ManualEvent) (pub : List Int) :
    manualResetGo evts pub =
      (if hasTimeout evts
       then ManualOutcome.timeoutError (pub ++ publishedBeforeTimeout evts)
       else ManualOutcome.stillLooping (pub ++ publishedBeforeTimeout evts)) := by
  induction evts generalizing pub with
  | nil => simp [manualResetGo, hasTimeout, publishedBeforeTimeout]
  | cons e rest ih =>
    cases e with
    | timeout => simp [manualResetGo, hasTimeout, publishedBeforeTimeout]
    | goal g =>
      simp only [manualResetGo, hasTimeout, publishedBeforeTimeout]
      rw [ih]
      split <;> simp

theorem scenarioCountAfter_eq (goal : Int × Int) (m : Nat) :
    scenarioCountAfter goal m = m := by
  induction m with
  | zero => rfl
  | succ p ih => simp [scenarioCountAfter, scenarioReset, ih]

theorem randomResetGo_stop (attempts : List AttemptResult) :
    randomResetGo attempts 3 = RandomResetOutcome.resetError := by
  rw [randomResetGo.eq_def]
  simp

theorem randomResetGo_success (rest : List AttemptResult) (gx gy : Int)
    (f : Nat) (h : f < 3) :
    randomResetGo (AttemptResult.success gx gy :: rest) f =
      RandomResetOutcome.ok gx gy := by
  rw [randomResetGo.eq_def]
  simp [h]

theorem randomResetGo_serviceError (rest : List AttemptResult) (f : Nat)
    (h : f < 3) :
    randomResetGo (AttemptResult.serviceError :: rest) f =
      randomResetGo rest (f + 1) := by
  rw [randomResetGo.eq_def]
  simp [h]

theorem randomResetGo_otherError (rest : List AttemptResult) (m : String)
    (f : Nat) (h : f < 3) :
    randomResetGo (AttemptResult.otherError m :: rest) f =
      RandomResetOutcome.uncaught m := by
  rw [randomResetGo.eq_def]
  simp [h]

/-- C1 counterexample: on the retreat transition from stage 3 to stage 2 of
`c1Stages`, the target stage 2 is not stage 1 and its dynamic count (1)
differs from that of stage 3 (5), the stage current before the transition, so
the claim predicts a simulator restart; but `_initiate_stage` compares with
stage 1 (the entry at `self._curr_stage - 1`) and performs the live
re-registration instead. -/
theorem c1_initiate_counterexample :
    (previousStage "sim_1" (StagedState.mk 3 3 false 3)).currStage = 2 ∧
    initiateStage c1Stages 2 = some (InitiateEffect.registerLive 1) ∧
    (2 : Nat) ≠ 1 ∧
    c1Stages[1]?.map StageDef.dynamic ≠ c1Stages[2]?.map StageDef.dynamic := by
  refine ⟨?_, ?_, ?_, ?_⟩ <;> decide

/-- C1 (amended): `_initiate_stage` at target stage `c` with entry `st` runs
the restart sequence exactly when `c = 1` or `st.dynamic` differs from the
dynamic count of the stage numbered `c - 1` (one below the target — the
pre-transition stage for advances, but not for retreats); when those counts
agree the new dynamic count is registered in the live world instead. -/
theorem c1_initiate_restart_iff (stages : List StageDef) (c : Nat)
    (st prev : StageDef) (hst : stages[c - 1]? = some st) :
    (c = 1 → initiateStage stages c = some (InitiateEffect.restart st.dynamic)) ∧
    (2 ≤ c → stages[c - 2]? = some prev →
      ((initiateStage stages c = some (InitiateEffect.restart st.dynamic) ↔
          st.dynamic ≠ prev.dynamic) ∧
        (initiateStage stages c =
            some (InitiateEffect.registerLive st.dynamic) ↔
          st.dynamic = prev.dynamic))) := by
  constructor
  · intro h1
    subst h1
    unfold initiateStage
    rw [hst]
    simp
  · intro h2 hprev
    have hne : ¬ c = 1 := by omega
    have hcomp : initiateStage stages c =
        (if st.dynamic ≠ prev.dynamic
         then some (InitiateEffect.restart st.dynamic)
         else some (InitiateEffect.registerLive st.dynamic)) := by
      unfold initiateStage
      rw [hst]
      simp only [if_neg hne]
      rw [hprev]
    by_cases hdy : st.dynamic = prev.dynamic
    · rw [hcomp, if_neg (not_not_intro hdy)]
      constructor
      · simp [hdy]
      · simp [hdy]
    · rw [hcomp, if_pos hdy]
      constructor
      · simp [hdy]
      · simp [hdy]

/-- Witness for `c1_initiate_restart_iff` at stage 3 of `c1Stages`. -/
theorem c1_initiate_restart_iff_witness :
    initiateStage c1Stages 3 = some (InitiateEffect.restart 5) :=
  ((c1_initiate_restart_iff c1Stages 3 { static := 0, dynamic := 5 }
        { static := 0, dynamic := 1 } (by decide)).2
      (by decide) (by decide)).1.mpr (by decide)

/-- Claim C2: constructing `StagedRandomTask` with integer start stage `s`
succeeds with `current_stage = s` exactly when `1 ≤ s ≤ N` and fails with the
out-of-bounds validation error otherwise; under every sequence of triggers
the stage stays within `[1, N]`; an advance trigger at stage `N` changes
neither the stage nor a true last-stage-reached flag; a retreat trigger at
stage 1 leaves the stage unchanged. -/
theorem c2_stage_bounds (stages : List StageDef) (startStage : Int)
    (env : StagedState) (ns : String) :
    ((∃ st, mkStagedRandomTask stages startStage env = Except.ok st) ↔
      1 ≤ startStage ∧ startStage ≤ (stages.length : Int)) ∧
    (∀ st, mkStagedRandomTask stages startStage env = Except.ok st →
      (st.currStage : Int) = startStage) ∧
    (∀ ts s, 1 ≤ s.currStage → s.currStage ≤ stages.length →
      1 ≤ (applyTriggers ns stages.length ts s).currStage ∧
        (applyTriggers ns stages.length ts s).currStage ≤ stages.length) ∧
    (∀ s : StagedState, s.currStage = stages.length →
      (nextStage ns stages.length s).currStage = s.currStage ∧
      (s.lastStageReached = true →
        (nextStage ns stages.length s).lastStageReached = true)) ∧
    (∀ s : StagedState, s.currStage = 1 →
      (previousStage ns s).currStage = s.currStage) := by
  refine ⟨?_, ?_, ?_, ?_, ?_⟩
  · by_cases h : startStage < 1 ∨ (stages.length : Int) < startStage
    · simp only [mkStagedRandomTask, if_pos h]
      constructor
      · rintro ⟨st, hst⟩
        exact Except.noConfusion hst
      · intro hb
        omega
    · simp only [mkStagedRandomTask, if_neg h]
      constructor
      · intro _
        omega
      · intro _
        exact ⟨_, rfl⟩
  · intro st hok
    by_cases h : startStage < 1 ∨ (stages.length : Int) < startStage
    · simp only [mkStagedRandomTask, if_pos h] at hok
      exact Except.noConfusion hok
    · simp only [mkStagedRandomTask, if_neg h] at hok
      have h2 := congrArg StagedState.currStage (Except.ok.inj hok)
      simp only at h2
      omega
  · intro ts s h1 h2
    exact applyTriggers_bounds ns stages.length ts s h1 h2
  · intro s hN
    have h1 : ¬ s.currStage < stages.length := by omega
    have hs : nextStage ns stages.length s = s := by
      simp only [nextStage, if_neg h1]
    constructor
    · rw [hs]
    · intro hf
      rw [hs]
      exact hf
  · intro s h1
    rw [previousStage_currStage, if_neg (by omega)]

/-- Witness for `c2_stage_bounds`: start stage 2 of the 3-stage `c1Stages`
is accepted, and one advance from `sampleStaged` stays within bounds. -/
theorem c2_stage_bounds_witness :
    (∃ st, mkStagedRandomTask c1Stages 2 sampleStaged = Except.ok st) ∧
    (1 ≤ (applyTriggers "eval_sim" c1Stages.length [Trigger.advance]
        sampleStaged).currStage ∧
      (applyTriggers "eval_sim" c1Stages.length [Trigger.advance]
        sampleStaged).currStage ≤ c1Stages.length) :=
  ⟨((c2_stage_bounds c1Stages 2 sampleStaged "eval_sim").1).mpr (by decide),
   (c2_stage_bounds c1Stages 2 sampleStaged "eval_sim").2.2.1 [Trigger.advance]
     sampleStaged (by decide) (by decide)⟩

/-- C3 counterexample: with a goal published inside the first 60-second wait
window, `ManualTask.reset` consumes it, publishes it downstream twice, and
then loops to wait for another goal instead of returning: after the supplied
event it is still inside its `while True` loop, so it does not return
normally. -/
theorem c3_manual_counterexample :
    manualReset [ManualEvent.goal 7] = ManualOutcome.stillLooping [7, 7] ∧
    (manualReset [ManualEvent.goal 7]).isReturned = false := by
  constructor <;> rfl

/-- C3 (amended): `ManualTask.reset` never returns normally.  Each goal
published within its window is consumed exactly once (the received-flag is
cleared) and published downstream twice, after which the loop sets up a new
episode and waits again; `reset` raises the timeout error exactly when some
wait window elapses with no goal, having published the goals consumed before
it, in order. -/
theorem c3_manual_reset (evts : List ManualEvent) :
    (manualReset evts).isReturned = false ∧
    manualReset evts =
      (if hasTimeout evts
       then ManualOutcome.timeoutError (publishedBeforeTimeout evts)
       else ManualOutcome.stillLooping (publishedBeforeTimeout evts)) := by
  have h := manualResetGo_spec evts []
  simp only [List.nil_append] at h
  refine ⟨?_, h⟩
  rw [show manualReset evts = manualResetGo evts [] from rfl, h]
  split <;> rfl

/-- Claim C4: three consecutive placement-service failures make
`RandomTask.reset` raise the terminal "reset error!" exception; `k < 3`
failures followed by a successful attempt make it return the info record
carrying the sampled goal position. -/
theorem c4_random_retry (rest : List AttemptResult) (gx gy : Int) (k : Nat)
    (hk : k < 3) :
    randomReset (List.replicate 3 AttemptResult.serviceError ++ rest) =
      RandomResetOutcome.resetError ∧
    randomReset (List.replicate k AttemptResult.serviceError ++
        AttemptResult.success gx gy :: rest) = RandomResetOutcome.ok gx gy := by
  constructor
  · show randomResetGo (AttemptResult.serviceError :: AttemptResult.serviceError
        :: AttemptResult.serviceError :: rest) 0 = _
    rw [randomResetGo_serviceError _ _ (by norm_num),
      randomResetGo_serviceError _ _ (by norm_num),
      randomResetGo_serviceError _ _ (by norm_num)]
    exact randomResetGo_stop rest
  · interval_cases k <;>
      simp [randomReset, randomResetGo_serviceError, randomResetGo_success]

/-- Witness for `c4_random_retry` with one failure before the success. -/
theorem c4_random_retry_witness :
    randomReset (List.replicate 1 AttemptResult.serviceError ++
        AttemptResult.success 3 4 :: []) = RandomResetOutcome.ok 3 4 :=
  (c4_random_retry [] 3 4 1 (by decide)).2

/-- Claim C10: only `rospy.ServiceException` counts toward the 3-attempt
bound of `RandomTask.reset`: any other exception, arising after `k < 3`
service failures, propagates out immediately — irrespective of what later
attempts would do, so it is neither retried nor counted. -/
theorem c10_random_uncaught (rest : List AttemptResult) (m : String) (k : Nat)
    (hk : k < 3) :
    randomReset (List.replicate k AttemptResult.serviceError ++
        AttemptResult.otherError m :: rest) = RandomResetOutcome.uncaught m := by
  interval_cases k <;>
    simp [randomReset, randomResetGo_serviceError, randomResetGo_otherError]

/-- Witness for `c10_random_uncaught` after two service failures. -/
theorem c10_random_uncaught_witness :
    randomReset (List.replicate 2 AttemptResult.serviceError ++
        AttemptResult.otherError "boom" ::
          [AttemptResult.success 0 0]) = RandomResetOutcome.uncaught "boom" :=
  c10_random_uncaught [AttemptResult.success 0 0] "boom" 2 (by decide)

/-- C5 counterexample: for the unknown mode tag "guided",
`get_predefined_task` does not raise; every `if mode == ...` test fails and
the function returns successfully with `task = None`. -/
theorem c5_factory_counterexample :
    getPredefinedTask "guided" = none := by
  decide

/-- C5 (amended): an unknown mode tag makes the factory return `None` — no
task variant constructed and no error raised — while each of the four known
tags yields the corresponding variant. -/
theorem c5_factory_unknown_mode (mode : String)
    (h : mode ≠ "random" ∧ mode ≠ "staged" ∧ mode ≠ "scenario" ∧
      mode ≠ "manual") :
    getPredefinedTask mode = none ∧
    getPredefinedTask "random" = some TaskKind.randomTask ∧
    getPredefinedTask "staged" = some TaskKind.stagedTask ∧
    getPredefinedTask "scenario" = some TaskKind.scenarioTask ∧
    getPredefinedTask "manual" = some TaskKind.manualTask := by
  obtain ⟨h1, h2, h3, h4⟩ := h
  refine ⟨?_, by decide, by decide, by decide, by decide⟩
  simp [getPredefinedTask, h1, h2, h3, h4]

/-- Witness for `c5_factory_unknown_mode` at the mode tag "foo". -/
theorem c5_factory_unknown_mode_witness :
    getPredefinedTask "foo" = none :=
  (c5_factory_unknown_mode "foo" (by decide)).1

/-- C6 counterexample: starting from `sampleStaged` (stage 2) in a 2-stage
curriculum, one advance trigger is a no-op at the last stage, but the
following retreat trigger decrements, ending at stage 1 instead of the
original stage 2. -/
theorem c6_counterexample :
    (applyTriggers "sim_1" 2
        (List.replicate 1 Trigger.advance ++ List.replicate 1 Trigger.retreat)
        sampleStaged).currStage = 1 ∧
    sampleStaged.currStage = 2 := by
  constructor <;> decide

/-- C6 (amended): `k` advance triggers followed by `k` retreat triggers
restore the original stage provided the advances never hit the last-stage
ceiling, i.e. when `currStage + k ≤ N` (with the stage at least 1). -/
theorem c6_advance_retreat (ns : String) (N k : Nat) (s : StagedState)
    (h1 : 1 ≤ s.currStage) (h2 : s.currStage + k ≤ N) :
    (applyTriggers ns N
        (List.replicate k Trigger.advance ++ List.replicate k Trigger.retreat)
        s).currStage = s.currStage := by
  rw [applyTriggers_append]
  have hadv := applyTriggers_replicate_advance ns N k s h2
  have hret := applyTriggers_replicate_retreat ns N k
      (applyTriggers ns N (List.replicate k Trigger.advance) s)
      (by rw [hadv]; omega)
  rw [hret, hadv]
  omega

/-- Witness for `c6_advance_retreat`: one advance then one retreat from stage
2 of a 3-stage curriculum returns to stage 2. -/
theorem c6_advance_retreat_witness :
    (applyTriggers "eval_sim" 3
        (List.replicate 1 Trigger.advance ++ List.replicate 1 Trigger.retreat)
        sampleStaged).currStage = sampleStaged.currStage :=
  c6_advance_retreat "eval_sim" 3 1 sampleStaged (by decide) (by decide)

/-- C7 counterexample: a non-authoritative instance (`ns = "sim_1"`) handling
a retreat trigger from stage 2 clears the published last-stage-reached flag
(`sampleStaged` has it set), which the claim reserves to the authoritative
instance; the persisted json record is indeed left unchanged. -/
theorem c7_counterexample :
    sampleStaged.lastStageReached = true ∧
    (previousStage "sim_1" sampleStaged).lastStageReached = false ∧
    (previousStage "sim_1" sampleStaged).jsonCurrStage =
      sampleStaged.jsonCurrStage := by
  refine ⟨?_, ?_, ?_⟩ <;> decide

/-- C7 (amended): a non-authoritative instance leaves the persisted
`curr_stage` record (the `/curr_stage` parameter and the json field)
unchanged on both triggers and leaves the flag unchanged on advances, but a
retreat from a stage above 1 clears the published last-stage-reached flag in
every instance, authoritative or not; the authoritative instance additionally
persists the decremented stage. -/
theorem c7_frame (ns : String) (N : Nat) (s : StagedState)
    (hns : ns ≠ "eval_sim") :
    (nextStage ns N s).paramCurrStage = s.paramCurrStage ∧
    (nextStage ns N s).jsonCurrStage = s.jsonCurrStage ∧
    (nextStage ns N s).lastStageReached = s.lastStageReached ∧
    (previousStage ns s).paramCurrStage = s.paramCurrStage ∧
    (previousStage ns s).jsonCurrStage = s.jsonCurrStage ∧
    (1 < s.currStage → (previousStage ns s).lastStageReached = false) ∧
    (1 < s.currStage →
      (previousStage "eval_sim" s).lastStageReached = false ∧
      (previousStage "eval_sim" s).paramCurrStage = s.currStage - 1 ∧
      (previousStage "eval_sim" s).jsonCurrStage = s.currStage - 1) := by
  by_cases hlt : s.currStage < N <;> by_cases hgt : 1 < s.currStage <;>
    simp [nextStage, previousStage, hns, hlt, hgt]

/-- Witness for `c7_frame` at `ns = "sim_1"` on `sampleStaged`. -/
theorem c7_frame_witness :
    (previousStage "sim_1" sampleStaged).jsonCurrStage =
      sampleStaged.jsonCurrStage :=
  (c7_frame "sim_1" 2 sampleStaged (by decide)).2.2.2.2.1

/-- Claim C8: the first `ScenarioTask.reset` call reports the
new-scenario-loaded indicator `true` with repeat counter 1; the `n`-th call
for every `n ≥ 2` reports it `false` with repeat counter `n`. -/
theorem c8_scenario_repeats (goal : Int × Int) (n : Nat) (hn : 2 ≤ n) :
    (scenarioNthInfo goal 1).newScenarioLoaded = true ∧
    (scenarioNthInfo goal 1).numRepeatsCurrScene = 1 ∧
    (scenarioNthInfo goal n).newScenarioLoaded = false ∧
    (scenarioNthInfo goal n).numRepeatsCurrScene = n := by
  refine ⟨rfl, rfl, ?_, ?_⟩
  · unfold scenarioNthInfo
    rw [scenarioCountAfter_eq]
    simp only [scenarioReset]
    rw [if_neg (show ¬ n - 1 + 1 = 1 by omega)]
  · unfold scenarioNthInfo
    rw [scenarioCountAfter_eq]
    simp only [scenarioReset]
    omega

/-- Witness for `c8_scenario_repeats` at the second reset call. -/
theorem c8_scenario_repeats_witness :
    (scenarioNthInfo (0, 0) 2).newScenarioLoaded = false ∧
    (scenarioNthInfo (0, 0) 2).numRepeatsCurrScene = 2 :=
  ⟨(c8_scenario_repeats (0, 0) 2 (by decide)).2.2.1,
   (c8_scenario_repeats (0, 0) 2 (by decide)).2.2.2⟩

/-- Claim C9: in every reachable interleaving of the map-update callback and
an in-progress `reset()` (both running their whole bodies under
`self._map_lock`), the two critical sections are mutually exclusive; a thread
trying to enter while the other holds the lock has no enabled step (it
blocks, and its position is preserved by the other thread's steps rather
than being dropped); it is enabled again as soon as the lock is free; and the
lock is never re-entered recursively (the holder is never at an acquire). -/
theorem c9_map_gate (n : Nat) (s : SysState) (hr : Reachable n s) :
    (¬ (inCS n Thread2.mapUpd s ∧ inCS n Thread2.resetter s)) ∧
    (∀ t u, s.lockHolder = some u → t ≠ u → ¬ ∃ s2, Step n t s s2) ∧
    (∀ t, s.lockHolder = none → pcOf t s = 0 → ∃ s2, Step n t s s2) ∧
    (∀ t u s2, t ≠ u → Step n u s s2 → pcOf t s2 = pcOf t s) ∧
    (∀ t, s.lockHolder = some t →
      ¬ (progOf n t).get? (pcOf t s) = some LAction.acquire) := by
  have hinv := lockInv_reachable n s hr
  refine ⟨?_, ?_, ?_, ?_, ?_⟩
  · rintro ⟨h1, h2⟩
    have e1 := ((hinv Thread2.mapUpd).1).mp h1
    have e2 := ((hinv Thread2.resetter).1).mp h2
    rw [e1] at e2
    exact Thread2.noConfusion (Option.some.inj e2)
  · intro t u hl hne hex
    obtain ⟨s2, hstep⟩ := hex
    cases hstep with
    | acq ha hl2 =>
      rw [hl] at hl2
      exact Option.noConfusion hl2
    | wrk ha =>
      have hp := workPos n t (pcOf t s) ha
      have hcs : inCS n t s := ⟨hp.1, by omega⟩
      have h3 := ((hinv t).1).mp hcs
      rw [hl] at h3
      exact hne (Option.some.inj h3).symm
    | rel ha hl2 =>
      rw [hl] at hl2
      exact hne (Option.some.inj hl2).symm
  · intro t hl hpc
    refine ⟨_, Step.acq t s ?_ hl⟩
    rw [hpc, progOf_eq_lockProg, lockProg_get]
    simp
  · intro t u s2 hne hstep
    cases hstep with
    | acq ha hl => rw [pcOf_setLock, pcOf_advancePc, if_neg hne]
    | wrk ha => rw [pcOf_advancePc, if_neg hne]
    | rel ha hl => rw [pcOf_setLock, pcOf_advancePc, if_neg hne]
  · intro t hl ha
    have hp0 := acquirePos n t (pcOf t s) ha
    have hcs : inCS n t s := ((hinv t).1).mpr hl
    have h1 := hcs.1
    rw [hp0] at h1
    omega

/-- Witness for `c9_map_gate` at the initial state, with a 4-step reset
body. -/
theorem c9_map_gate_witness :
    ¬ (inCS 4 Thread2.mapUpd initState ∧ inCS 4 Thread2.resetter initState) :=
  (c9_map_gate 4 initState Reachable.init).1

end ArenaTasks
